import Mathlib

/-!
Verification of the chat client session core (`src/YewChat/src/components/chat.rs`):
the wire envelope codec, the `update` state machine of the `Chat` component,
and the sender-resolution logic of `view`. Machine integers do not occur; all data is
strings and lists, embedded directly. `serde_json` (de)serialization is embedded
as a JSON value type plus an executable text-level parser and the derive-generated
(de)coders for the concrete structs; a Rust `panic!` (from `.unwrap()`) is embedded
as `Option.none` in the step function.
-/

/-- JSON values, as produced by a `serde_json` parse. Numbers keep their raw
lexeme: no field of the chat protocol is numeric, so their value is never
inspected. -/
inductive JsonValue where
  | Null : JsonValue
  | Boolean : Bool → JsonValue
  | Number : String → JsonValue
  | String : String → JsonValue
  | Array : List JsonValue → JsonValue
  | Object : List (String × JsonValue) → JsonValue

/-- Whitespace skipping of the JSON lexer. -/
def dropWs : List Char → List Char
  | c :: cs => if c = ' ' ∨ c = '\n' ∨ c = '\t' ∨ c = '\r' then dropWs cs else c :: cs
  | [] => []

/-- Resolution of a backslash escape inside a JSON string literal. -/
def escMap (e : Char) : Option Char :=
  if e = 'n' then some '\n'
  else if e = 't' then some '\t'
  else if e = 'r' then some '\r'
  else if e = '"' ∨ e = '\\' ∨ e = '/' then some e
  else none

/-- Body of a JSON string literal, after the opening quote: returns the decoded
characters and the input remaining after the closing quote. -/
def readStringChars : List Char → Option (List Char × List Char)
  | [] => none
  | '"' :: cs => some ([], cs)
  | '\\' :: [] => none
  | '\\' :: e :: cs =>
    match escMap e with
    | some d =>
      match readStringChars cs with
      | some (s, r) => some (d :: s, r)
      | none => none
    | none => none
  | c :: cs =>
    match readStringChars cs with
    | some (s, r) => some (c :: s, r)
    | none => none

/-- Characters that may occur in a JSON number lexeme. -/
def isNumChar (c : Char) : Bool :=
  c.isDigit || c = '-' || c = '+' || c = '.' || c = 'e' || c = 'E'

mutual

/-- One JSON value, by recursive descent with explicit fuel. -/
def readValue : Nat → List Char → Option (JsonValue × List Char)
  | 0, _ => none
  | Nat.succ fuel, l =>
    match dropWs l with
    | [] => none
    | c :: cs =>
      if c = '"' then
        match readStringChars cs with
        | some (s, r) => some (JsonValue.String (String.mk s), r)
        | none => none
      else if c = '[' then
        match dropWs cs with
        | ']' :: r => some (JsonValue.Array [], r)
        | l2 =>
          match readElements fuel l2 with
          | some (xs, r) => some (JsonValue.Array xs, r)
          | none => none
      else if c = '\x7b' then
        match dropWs cs with
        | '\x7d' :: r => some (JsonValue.Object [], r)
        | l2 =>
          match readMembers fuel l2 with
          | some (ms, r) => some (JsonValue.Object ms, r)
          | none => none
      else if c.isDigit ∨ c = '-' then
        some (JsonValue.Number (String.mk ((c :: cs).takeWhile isNumChar)), (c :: cs).dropWhile isNumChar)
      else if (c :: cs).take 4 = ['n', 'u', 'l', 'l'] then
        some (JsonValue.Null, (c :: cs).drop 4)
      else if (c :: cs).take 4 = ['t', 'r', 'u', 'e'] then
        some (JsonValue.Boolean true, (c :: cs).drop 4)
      else if (c :: cs).take 5 = ['f', 'a', 'l', 's', 'e'] then
        some (JsonValue.Boolean false, (c :: cs).drop 5)
      else none

/-- Comma-separated array elements, up to and including the closing bracket. -/
def readElements : Nat → List Char → Option (List JsonValue × List Char)
  | 0, _ => none
  | Nat.succ fuel, l =>
    match readValue fuel l with
    | none => none
    | some (j, r) =>
      match dropWs r with
      | ',' :: r2 =>
        match readElements fuel r2 with
        | some (xs, r3) => some (j :: xs, r3)
        | none => none
      | ']' :: r2 => some ([j], r2)
      | _ => none

/-- Comma-separated object members, up to and including the closing brace. -/
def readMembers : Nat → List Char → Option (List (String × JsonValue) × List Char)
  | 0, _ => none
  | Nat.succ fuel, l =>
    match dropWs l with
    | '"' :: cs =>
      match readStringChars cs with
      | some (k, r) =>
        match dropWs r with
        | ':' :: r2 =>
          match readValue fuel r2 with
          | none => none
          | some (v, r3) =>
            match dropWs r3 with
            | ',' :: r4 =>
              match readMembers fuel r4 with
              | some (ms, r5) => some ((String.mk k, v) :: ms, r5)
              | none => none
            | '\x7d' :: r4 => some ([(String.mk k, v)], r4)
            | _ => none
        | _ => none
      | none => none
    | _ => none

end

/-- Text parsing as `serde_json` does it: the whole input must be one JSON value with
nothing but whitespace after it. -/
def parseJson (s : String) : Option JsonValue :=
  match readValue (2 * s.length + 2) s.data with
  | some (j, r) => if dropWs r = [] then some j else none
  | none => none

example : parseJson "not json" = none := rfl
example : parseJson "\x7b\"messageType\":\"ping\"\x7d" =
    some (JsonValue.Object [("messageType", JsonValue.String "ping")]) := rfl

/-- The `MsgTypes` enum; `#[serde(rename_all = "lowercase")]` gives the wire
tags `users`, `register`, `message`. -/
inductive MsgTypes where
  | Users : MsgTypes
  | Register : MsgTypes
  | Message : MsgTypes
deriving DecidableEq

/-- The nested chat payload `struct MessageData { from, message }`. -/
structure MessageData where
  «from» : String
  message : String
deriving DecidableEq

/-- The wire envelope `struct WebSocketMessage`; `rename_all = "camelCase"`
gives the wire keys `messageType`, `dataArray`, `data`. -/
structure WebSocketMessage where
  message_type : MsgTypes
  data_array : Option (List String)
  data : Option String
deriving DecidableEq

/-- A roster entry `struct UserProfile { name, avatar }`. -/
structure UserProfile where
  name : String
  avatar : String
deriving DecidableEq

/-- The avatar URL template applied in both `update` (roster building) and
`view` (fallback sender profile). -/
def avatarOf (u : String) : String :=
  "https://avatars.dicebear.com/api/adventurer-neutral/" ++ u ++ ".svg"

/-- Serialization of the `MsgTypes` tag. -/
def encodeMsgType : MsgTypes → JsonValue
  | MsgTypes.Users => JsonValue.String "users"
  | MsgTypes.Register => JsonValue.String "register"
  | MsgTypes.Message => JsonValue.String "message"

/-- Serialization of an `Option<Vec<String>>` field: `None` becomes `null`. -/
def encodeOptArr : Option (List String) → JsonValue
  | none => JsonValue.Null
  | some xs => JsonValue.Array (xs.map JsonValue.String)

/-- Serialization of an `Option<String>` field: `None` becomes `null`. -/
def encodeOptStr : Option String → JsonValue
  | none => JsonValue.Null
  | some s => JsonValue.String s

/-- Serialization `serde_json::to_string(&msg)` of a `WebSocketMessage`, at the JSON-value
level: an object with the three camelCase keys in declaration order. -/
def encodeWSM (m : WebSocketMessage) : JsonValue :=
  JsonValue.Object
    [("messageType", encodeMsgType m.message_type),
     ("dataArray", encodeOptArr m.data_array),
     ("data", encodeOptStr m.data)]

/-- Field lookup in a parsed JSON object, as serde does when deserializing a
struct from a map of members. -/
def jlookup : List (String × JsonValue) → String → Option JsonValue
  | [], _ => none
  | (k, v) :: ms, key => if k = key then some v else jlookup ms key

/-- Deserialization of the `MsgTypes` tag: any string other than the three
renamed variants is an unknown-variant error. -/
def decodeMsgType : JsonValue → Except String MsgTypes
  | JsonValue.String s =>
    if s = "users" then Except.ok MsgTypes.Users
    else if s = "register" then Except.ok MsgTypes.Register
    else if s = "message" then Except.ok MsgTypes.Message
    else Except.error "unknown variant"
  | _ => Except.error "invalid type"

/-- Deserialization of a `Vec<String>` from a JSON array: every element must
be a string. -/
def decodeStrList : List JsonValue → Option (List String)
  | [] => some []
  | JsonValue.String s :: rest => (decodeStrList rest).map (fun l => s :: l)
  | _ => none

/-- Deserialization of an `Option<Vec<String>>` field: a missing field and
`null` both give `None`. -/
def decodeOptArr : Option JsonValue → Except String (Option (List String))
  | none => Except.ok none
  | some JsonValue.Null => Except.ok none
  | some (JsonValue.Array xs) =>
    match decodeStrList xs with
    | some l => Except.ok (some l)
    | none => Except.error "invalid type"
  | some _ => Except.error "invalid type"

/-- Deserialization of an `Option<String>` field: a missing field and `null`
both give `None`. -/
def decodeOptStr : Option JsonValue → Except String (Option String)
  | none => Except.ok none
  | some JsonValue.Null => Except.ok none
  | some (JsonValue.String s) => Except.ok (some s)
  | some _ => Except.error "invalid type"

/-- Deserialization of `WebSocketMessage` from a JSON value: `messageType` is
required, the two payload fields are optional. -/
def decodeWSM : JsonValue → Except String WebSocketMessage
  | JsonValue.Object ms =>
    match jlookup ms "messageType" with
    | none => Except.error "missing field messageType"
    | some jt =>
      match decodeMsgType jt with
      | Except.error e => Except.error e
      | Except.ok mt =>
        match decodeOptArr (jlookup ms "dataArray") with
        | Except.error e => Except.error e
        | Except.ok da =>
          match decodeOptStr (jlookup ms "data") with
          | Except.error e => Except.error e
          | Except.ok d => Except.ok (WebSocketMessage.mk mt da d)
  | _ => Except.error "invalid type"

/-- Deserialization of the nested `MessageData` payload: both fields are
required strings. -/
def decodeMessageData : JsonValue → Except String MessageData
  | JsonValue.Object ms =>
    match jlookup ms "from", jlookup ms "message" with
    | some (JsonValue.String f), some (JsonValue.String m) => Except.ok (MessageData.mk f m)
    | _, _ => Except.error "invalid MessageData"
  | _ => Except.error "invalid type"

/-- Deserialization `serde_json::from_str::<WebSocketMessage>`: text parse,
then struct decoding. -/
def fromStr (s : String) : Except String WebSocketMessage :=
  match parseJson s with
  | none => Except.error "invalid json"
  | some j => decodeWSM j

/-- Deserialization `serde_json::from_str::<MessageData>` applied to the
nested `data` string of a `Message` envelope. -/
def fromStrMD (s : String) : Except String MessageData :=
  match parseJson s with
  | none => Except.error "invalid json"
  | some j => decodeMessageData j

example :
    fromStr "\x7b\"messageType\":\"users\",\"dataArray\":[\"amy\",\"bo\"]\x7d" =
      Except.ok (WebSocketMessage.mk MsgTypes.Users (some ["amy", "bo"]) none) := rfl
example : fromStrMD "\x7b\"from\":\"amy\",\"message\":\"hi\"\x7d" =
    Except.ok (MessageData.mk "amy" "hi") := rfl

/-- Whitespace trimming at both ends, as in the precondition non-empty after
trimming of the claims (Rust `str::trim`); stated on the character list so it is
kernel-executable. -/
def trimChars (s : String) : String :=
  String.mk (((s.data.dropWhile Char.isWhitespace).reverse.dropWhile
    Char.isWhitespace).reverse)

/-- The mutable state of the `Chat` component: roster (`users`), log
(`messages`) and the sidebar flag. `chat_input`, `wss` and `_producer` are
handles to external collaborators; the current value of the input element is
passed with the `SubmitMessage` event instead. -/
structure ChatState where
  users : List UserProfile
  messages : List MessageData
  sidebar_visible : Bool
deriving DecidableEq

/-- Event type `Msg` of the component. `HandleMsg` carries the raw inbound
frame text; `SubmitMessage` carries `chat_input.cast::<HtmlInputElement>()`
read at dispatch time (`none` when the cast fails). -/
inductive Msg where
  | HandleMsg : String → Msg
  | SubmitMessage : Option String → Msg
  | ToggleSidebar : Msg

/-- Body of the `match msg.message_type` in the `HandleMsg` arm of `update`,
applied
to an already-decoded envelope. `none` embeds a panic: `msg.data.unwrap()` on
a missing `data` field, or `.unwrap()` on a failed nested parse. The wildcard
arm of the source `match` (reached only by `Register`) returns `false` with
the state untouched. -/
def applyWSM (st : ChatState) (msg : WebSocketMessage) : Option (ChatState × Bool) :=
  match msg.message_type with
  | MsgTypes.Users =>
    let users_from_message := msg.data_array.getD []
    some ({ st with
      users := users_from_message.map (fun u => UserProfile.mk u (avatarOf u)) }, true)
  | MsgTypes.Message =>
    match msg.data with
    | none => none
    | some d =>
      match fromStrMD d with
      | Except.error _ => none
      | Except.ok message_data =>
        some ({ st with messages := st.messages ++ [message_data] }, true)
  | MsgTypes.Register => some (st, false)

/-- Embedding of `Chat::update`. The result is the new state, the texts handed to
`wss.tx.try_send` (kept as JSON values via `encodeWSM`), and the returned
re-render flag; `none` embeds a panic, here `serde_json::from_str(&s).unwrap()`
on a frame that fails to decode. A `try_send` error is only logged, so a send
is recorded whether or not the transport accepts it. -/
def update (st : ChatState) (m : Msg) : Option (ChatState × List JsonValue × Bool) :=
  match m with
  | Msg.HandleMsg s =>
    match fromStr s with
    | Except.error _ => none
    | Except.ok msg =>
      match applyWSM st msg with
      | none => none
      | some (st', render) => some (st', [], render)
  | Msg.SubmitMessage input =>
    match input with
    | none => some (st, [], false)
    | some v =>
      let message := WebSocketMessage.mk MsgTypes.Message none (some v)
      some (st, [encodeWSM message], false)
  | Msg.ToggleSidebar =>
    some ({ st with sidebar_visible := !st.sidebar_visible }, [], true)

/-- A sequence of dispatched events, each processed to completion; a panic
(`none`) aborts the whole run. -/
def runMsgs (st : ChatState) : List Msg → Option ChatState
  | [] => some st
  | m :: ms =>
    match update st m with
    | none => none
    | some (st', _, _) => runMsgs st' ms

/-- Sender resolution from `view`: the first roster profile whose `name`
equals the `from` field of the message, or else a synthesized default profile with the
computed avatar. -/
def resolveSender (users : List UserProfile) (m : MessageData) : UserProfile :=
  match users.find? (fun u => u.name == m.«from») with
  | some u => u
  | none => UserProfile.mk m.«from» (avatarOf m.«from»)

example :
    update (ChatState.mk [] [] true)
      (Msg.HandleMsg "\x7b\"messageType\":\"users\",\"dataArray\":[\"amy\",\"bo\"]\x7d") =
    some (ChatState.mk
      [UserProfile.mk "amy" (avatarOf "amy"), UserProfile.mk "bo" (avatarOf "bo")]
      [] true, [], true) := rfl

example :
    update (ChatState.mk [] [] true) (Msg.HandleMsg "not json") = none := rfl

/-- C1. The claim says a frame whose text is not valid JSON is dropped without
a crash, leaving roster and log unchanged and recording a diagnostic. The code
instead calls `serde_json::from_str(&s).unwrap()`, which panics on the frame
`"not json"` from any state; no diagnostic is recorded. -/
theorem c1_invalid_json_panics (st : ChatState) :
    parseJson "not json" = none ∧ update st (Msg.HandleMsg "not json") = none :=
  ⟨rfl, rfl⟩

/-- C2, counterexample. The ping frame text is valid JSON, but
deserializing it fails (unknown variant `ping`), so `update` panics on the
`.unwrap()` instead of treating the frame as a no-op. -/
theorem c2_counterexample :
    parseJson "\x7b\"messageType\":\"ping\"\x7d" =
      some (JsonValue.Object [("messageType", JsonValue.String "ping")])
    ∧ decodeWSM (JsonValue.Object [("messageType", JsonValue.String "ping")]) =
        Except.error "unknown variant"
    ∧ update (ChatState.mk [] [] true) (Msg.HandleMsg "\x7b\"messageType\":\"ping\"\x7d") =
        none :=
  ⟨rfl, rfl, rfl⟩

/-- C2, amended. A valid-JSON object whose `messageType` is a string other
than `users`, `register` or `message` fails to deserialize, and `update`
panics on any frame whose text parses but fails to deserialize; no no-op
tolerance for unknown kinds exists. -/
theorem c2_unknown_message_type_panics :
    (∀ (ms : List (String × JsonValue)) (t : String),
      jlookup ms "messageType" = some (JsonValue.String t) →
      t ≠ "users" → t ≠ "register" → t ≠ "message" →
      ∃ e, decodeWSM (JsonValue.Object ms) = Except.error e)
    ∧ (∀ (st : ChatState) (s : String) (j : JsonValue),
      parseJson s = some j → (∃ e, decodeWSM j = Except.error e) →
      update st (Msg.HandleMsg s) = none) := by
  constructor
  · intro ms t hms h1 h2 h3
    refine ⟨"unknown variant", ?_⟩
    simp [decodeWSM, hms, decodeMsgType, h1, h2, h3]
  · intro st s j hp he
    obtain ⟨e, he⟩ := he
    simp [update, fromStr, hp, he]

/-- C2, witness for the amended theorem at the concrete ping frame. -/
theorem c2_unknown_message_type_panics_witness :
    (∃ e, decodeWSM (JsonValue.Object [("messageType", JsonValue.String "ping")]) = Except.error e)
    ∧ update (ChatState.mk [] [] true)
        (Msg.HandleMsg "\x7b\"messageType\":\"ping\"\x7d") = none := by
  constructor
  · exact c2_unknown_message_type_panics.1 [("messageType", JsonValue.String "ping")] "ping"
      rfl (by decide) (by decide) (by decide)
  · exact c2_unknown_message_type_panics.2 (ChatState.mk [] [] true)
      "\x7b\"messageType\":\"ping\"\x7d" (JsonValue.Object [("messageType", JsonValue.String "ping")])
      rfl ⟨"unknown variant", rfl⟩

/-- C3, counterexample. The claim says a whitespace-only input performs no
send; the code has no trim or emptiness check, so submitting `"  "` hands
exactly one encoded `Message` envelope with body `"  "` to the transport. -/
theorem c3_counterexample :
    update (ChatState.mk [] [] true) (Msg.SubmitMessage (some "  ")) =
      some (ChatState.mk [] [] true,
        [encodeWSM (WebSocketMessage.mk MsgTypes.Message none (some "  "))], false)
    ∧ [encodeWSM (WebSocketMessage.mk MsgTypes.Message none (some "  "))] ≠
        ([] : List JsonValue) :=
  ⟨rfl, by simp⟩

/-- C3, amended. Submitting any input value (the input element being present)
sends exactly one `Message` envelope whose `data` is the raw, untrimmed input
— including empty or whitespace-only input — with no state change and no
re-render. -/
theorem c3_submit_always_sends (st : ChatState) (v : String) :
    update st (Msg.SubmitMessage (some v)) =
      some (st, [encodeWSM (WebSocketMessage.mk MsgTypes.Message none (some v))], false) :=
  rfl

/-- C4. A decoded `Users` envelope carrying a username list replaces the
roster wholesale with the in-order image of the list under the avatar
template, leaves the log unchanged, preserves length and index-wise order
(hence duplicates and the empty list), and signals a re-render. -/
theorem c4_users_replaces_roster (st : ChatState) (names : List String)
    (d : Option String) :
    ∃ st', applyWSM st (WebSocketMessage.mk MsgTypes.Users (some names) d) =
        some (st', true)
      ∧ st'.users = names.map (fun u => UserProfile.mk u (avatarOf u))
      ∧ st'.messages = st.messages
      ∧ st'.users.length = names.length
      ∧ ∀ i : Nat, st'.users[i]? =
          (names[i]?).map (fun u => UserProfile.mk u (avatarOf u)) := by
  refine ⟨_, rfl, rfl, rfl, ?_, ?_⟩
  · simp [applyWSM]
  · intro i
    simp [applyWSM]

/-- C5. A decoded `Message` envelope whose nested `data` string deserializes
to a `MessageData` appends exactly that entry at the end of the log, touching
nothing else, and signals a re-render. -/
theorem c5_message_appends (st : ChatState) (da : Option (List String))
    (d : String) (md : MessageData) (h : fromStrMD d = Except.ok md) :
    applyWSM st (WebSocketMessage.mk MsgTypes.Message da (some d)) =
      some ({ st with messages := st.messages ++ [md] }, true) := by
  simp [applyWSM, h]

/-- C5, witness: the envelope of scenario B appends exactly the entry with
sender amy and body hi. -/
theorem c5_message_appends_witness :
    fromStrMD "\x7b\"from\":\"amy\",\"message\":\"hi\"\x7d" =
      Except.ok (MessageData.mk "amy" "hi")
    ∧ applyWSM (ChatState.mk [] [] true)
        (WebSocketMessage.mk MsgTypes.Message none
          (some "\x7b\"from\":\"amy\",\"message\":\"hi\"\x7d")) =
      some (ChatState.mk [] [MessageData.mk "amy" "hi"] true, true) :=
  ⟨rfl, c5_message_appends (ChatState.mk [] [] true) none
    "\x7b\"from\":\"amy\",\"message\":\"hi\"\x7d" (MessageData.mk "amy" "hi") rfl⟩

/-- C6. For an input that is non-empty after trimming, submit sends exactly
one `Message` envelope whose `data` is that input (`from` is left to the
server side), with no state change. -/
theorem c6_nonempty_submit_sends_one (st : ChatState) (v : String)
    (_h : trimChars v ≠ "") :
    update st (Msg.SubmitMessage (some v)) =
      some (st, [encodeWSM (WebSocketMessage.mk MsgTypes.Message none (some v))], false) :=
  rfl

/-- C6, witness at the input `"hello"` of scenario F. -/
theorem c6_nonempty_submit_sends_one_witness :
    trimChars "hello" ≠ ""
    ∧ update (ChatState.mk [] [] true) (Msg.SubmitMessage (some "hello")) =
      some (ChatState.mk [] [] true,
        [encodeWSM (WebSocketMessage.mk MsgTypes.Message none (some "hello"))], false) :=
  ⟨by decide, c6_nonempty_submit_sends_one (ChatState.mk [] [] true) "hello" (by decide)⟩

/-- C10. A decoded `Users` envelope with no `dataArray` replaces the roster
with the empty list (`unwrap_or_default`) and still signals a re-render; both
an absent and a `null` `dataArray` field deserialize to `None`. -/
theorem c10_missing_dataarray_empty_roster :
    (∀ (st : ChatState) (d : Option String),
      applyWSM st (WebSocketMessage.mk MsgTypes.Users none d) =
        some ({ st with users := [] }, true))
    ∧ decodeWSM (JsonValue.Object [("messageType", JsonValue.String "users")]) =
        Except.ok (WebSocketMessage.mk MsgTypes.Users none none)
    ∧ decodeWSM (JsonValue.Object [("messageType", JsonValue.String "users"), ("dataArray", JsonValue.Null)]) =
        Except.ok (WebSocketMessage.mk MsgTypes.Users none none) :=
  ⟨fun _ _ => rfl, rfl, rfl⟩

/-- Deserializing the serialization of a string list recovers the list. -/
theorem decodeStrList_map (l : List String) :
    decodeStrList (l.map JsonValue.String) = some l := by
  induction l with
  | nil => rfl
  | cons x xs ih => simp [decodeStrList, ih]

/-- C7. Round-trip of the codec: deserializing the serialization of any
envelope value gives back exactly that envelope. -/
theorem c7_roundtrip (m : WebSocketMessage) :
    decodeWSM (encodeWSM m) = Except.ok m := by
  obtain ⟨mt, da, d⟩ := m
  have hda : decodeOptArr (some (encodeOptArr da)) = Except.ok da := by
    cases da with
    | none => rfl
    | some l => simp [encodeOptArr, decodeOptArr, decodeStrList_map]
  have hd : decodeOptStr (some (encodeOptStr d)) = Except.ok d := by
    cases d with
    | none => rfl
    | some s => rfl
  have h1 : ∀ a b c : JsonValue,
      jlookup [("messageType", a), ("dataArray", b), ("data", c)] "messageType" =
        some a := fun _ _ _ => rfl
  have h2 : ∀ a b c : JsonValue,
      jlookup [("messageType", a), ("dataArray", b), ("data", c)] "dataArray" =
        some b := fun _ _ _ => rfl
  have h3 : ∀ a b c : JsonValue,
      jlookup [("messageType", a), ("dataArray", b), ("data", c)] "data" =
        some c := fun _ _ _ => rfl
  cases mt <;>
    simp [encodeWSM, decodeWSM, h1, h2, h3, encodeMsgType, decodeMsgType, hda, hd]

/-- Any successful single `update` step only ever extends the message log at
its end. -/
theorem update_messages_extend (st : ChatState) (m : Msg) (st' : ChatState)
    (sends : List JsonValue) (b : Bool) (h : update st m = some (st', sends, b)) :
    ∃ t, st'.messages = st.messages ++ t := by
  cases m with
  | HandleMsg s =>
    cases hf : fromStr s with
    | error e => simp [update, hf] at h
    | ok msg =>
      obtain ⟨mt, da, d⟩ := msg
      cases mt with
      | Users =>
        simp [update, hf, applyWSM] at h
        exact ⟨[], by rw [← h.1]; simp⟩
      | Message =>
        cases d with
        | none => simp [update, hf, applyWSM] at h
        | some dd =>
          cases hmd : fromStrMD dd with
          | error e => simp [update, hf, applyWSM, hmd] at h
          | ok md =>
            simp [update, hf, applyWSM, hmd] at h
            exact ⟨[md], by rw [← h.1]⟩
      | Register =>
        simp [update, hf, applyWSM] at h
        exact ⟨[], by rw [← h.1]; simp⟩
  | SubmitMessage input =>
    cases input with
    | none =>
      simp [update] at h
      exact ⟨[], by rw [← h.1]; simp⟩
    | some v =>
      simp [update] at h
      exact ⟨[], by rw [← h.1]; simp⟩
  | ToggleSidebar =>
    simp [update] at h
    exact ⟨[], by rw [← h.1]; simp⟩

/-- C8. Across any sequence of dispatched events that completes, the log is
append-only: the final log extends the initial one at the end (so every prior
entry is unchanged) and its length is non-decreasing. -/
theorem c8_log_append_only (st : ChatState) (ms : List Msg) (st' : ChatState)
    (h : runMsgs st ms = some st') :
    (∃ t, st'.messages = st.messages ++ t)
    ∧ st.messages.length ≤ st'.messages.length := by
  suffices hs : ∃ t, st'.messages = st.messages ++ t by
    obtain ⟨t, ht⟩ := hs
    exact ⟨⟨t, ht⟩, by rw [ht]; simp⟩
  induction ms generalizing st with
  | nil =>
    simp [runMsgs] at h
    exact ⟨[], by rw [h]; simp⟩
  | cons m rest ih =>
    simp only [runMsgs] at h
    cases hu : update st m with
    | none => rw [hu] at h; simp at h
    | some p =>
      rw [hu] at h
      obtain ⟨st1, sends, b⟩ := p
      obtain ⟨t1, ht1⟩ := update_messages_extend st m st1 sends b hu
      obtain ⟨t2, ht2⟩ := ih st1 h
      exact ⟨t1 ++ t2, by rw [ht2, ht1, List.append_assoc]⟩

/-- C8, witness: a concrete run (one inbound chat message, one submit) whose
final log extends the initial empty log. -/
theorem c8_log_append_only_witness :
    (∃ t, (ChatState.mk [] [MessageData.mk "amy" "hi"] true).messages =
      (ChatState.mk [] [] true).messages ++ t)
    ∧ (ChatState.mk [] [] true).messages.length ≤
        (ChatState.mk [] [MessageData.mk "amy" "hi"] true).messages.length :=
  c8_log_append_only (ChatState.mk [] [] true)
    [Msg.HandleMsg "\x7b\"messageType\":\"message\",\"data\":\"\x7b\\\"from\\\":\\\"amy\\\",\\\"message\\\":\\\"hi\\\"\x7d\"\x7d",
     Msg.SubmitMessage (some "hello")]
    (ChatState.mk [] [MessageData.mk "amy" "hi"] true) rfl

/-- C9. Sender resolution: either the resolved profile is a roster entry
whose name equals the `from` of the message, or no roster entry has that name and
the synthesized fallback profile (same name, computed avatar) is returned. -/
theorem c9_resolve_sender (users : List UserProfile) (m : MessageData) :
    (resolveSender users m ∈ users ∧ (resolveSender users m).name = m.«from»)
    ∨ ((∀ u ∈ users, u.name ≠ m.«from»)
       ∧ resolveSender users m = UserProfile.mk m.«from» (avatarOf m.«from»)) := by
  unfold resolveSender
  cases hf : users.find? (fun u => u.name == m.«from») with
  | some u =>
    left
    constructor
    · exact List.mem_of_find?_eq_some hf
    · have := List.find?_some hf
      simpa using this
  | none =>
    right
    refine ⟨?_, rfl⟩
    intro u hu
    have := List.find?_eq_none.mp hf u hu
    simpa using this

/-- C9, witness at a roster without the sender (fallback branch) — a direct
instantiation of the resolution theorem. -/
theorem c9_resolve_sender_witness :
    (resolveSender [UserProfile.mk "amy" (avatarOf "amy")] (MessageData.mk "bo" "x") ∈
        [UserProfile.mk "amy" (avatarOf "amy")]
      ∧ (resolveSender [UserProfile.mk "amy" (avatarOf "amy")]
          (MessageData.mk "bo" "x")).name = (MessageData.mk "bo" "x").«from»)
    ∨ ((∀ u ∈ [UserProfile.mk "amy" (avatarOf "amy")],
          u.name ≠ (MessageData.mk "bo" "x").«from»)
       ∧ resolveSender [UserProfile.mk "amy" (avatarOf "amy")] (MessageData.mk "bo" "x") =
          UserProfile.mk "bo" (avatarOf "bo")) :=
  c9_resolve_sender [UserProfile.mk "amy" (avatarOf "amy")] (MessageData.mk "bo" "x")
